import Mathlib

/-!
Verification of the Pebble LAN file-synchronization core against its
natural-language specification.  The Rust sources under `src/rust/src/api/`
are shallowly embedded: pure functions become Lean functions, SQLite tables
become association lists / lists of rows, machine integers become `Nat`
with explicit `% 2^w` where overflow matters, and fallible operations
return `Except`.  Library primitives that the repository merely calls
(SHA-256, HMAC-SHA-256) are taken as function parameters; BLAKE3, whose
concrete output value the spec pins down, is modelled in full for inputs
of at most one chunk.
-/

namespace Pebble

/-! ## Hasher (`integrity.rs`)

`calculate_file_hash` reads the file and feeds it (in 64 KiB buffer
slices, which is equivalent to feeding the whole content) into a
`blake3::Hasher`, then returns `hasher.finalize().to_hex()`.  The BLAKE3
algorithm is modelled in full for inputs of at most one chunk
(1024 bytes): IV, the G mixing function, the message permutation, the
7-round compression function, and the block chaining inside a chunk, the
final block of the root chunk carrying `CHUNK_END | ROOT`.
`finalize()` produces the default 256-bit digest: the first 8 output
words of the root compression, serialized little-endian.  `to_hex()` is
lowercase hex. -/

def U32 : Nat := 2 ^ 32

/-- Addition on u32 words. -/
def add32 (a b : Nat) : Nat := (a + b) % U32

/-- Right rotation of a u32 word (`x` must be below `2^32`). -/
def rotr32 (x n : Nat) : Nat := x / 2 ^ n + x % 2 ^ n * 2 ^ (32 - n)

/-- The BLAKE3 initialization vector (the SHA-256 IV words). -/
def blake3IV : List Nat :=
  [0x6A09E667, 0xBB67AE85, 0x3C6EF372, 0xA54FF53A,
   0x510E527F, 0x9B05688C, 0x1F83D9AB, 0x5BE0CD19]

def CHUNK_START : Nat := 1
def CHUNK_END : Nat := 2
def ROOT : Nat := 8

/-- Word `i` of a state or message vector. -/
def wd (v : List Nat) (i : Nat) : Nat := v.getD i 0

/-- The BLAKE3 G mixing function applied to state positions
`a b c d` with message words `mx my`. -/
def gMix (v : List Nat) (a b c d mx my : Nat) : List Nat :=
  let va := add32 (add32 (wd v a) (wd v b)) mx
  let vd := rotr32 (Nat.xor (wd v d) va) 16
  let vc := add32 (wd v c) vd
  let vb := rotr32 (Nat.xor (wd v b) vc) 12
  let va2 := add32 (add32 va vb) my
  let vd2 := rotr32 (Nat.xor vd va2) 8
  let vc2 := add32 vc vd2
  let vb2 := rotr32 (Nat.xor vb vc2) 7
  (((v.set a va2).set b vb2).set c vc2).set d vd2

/-- One round of the BLAKE3 compression: four column mixes then four
diagonal mixes. -/
def roundFn (v m : List Nat) : List Nat :=
  let v1 := gMix v 0 4 8 12 (wd m 0) (wd m 1)
  let v2 := gMix v1 1 5 9 13 (wd m 2) (wd m 3)
  let v3 := gMix v2 2 6 10 14 (wd m 4) (wd m 5)
  let v4 := gMix v3 3 7 11 15 (wd m 6) (wd m 7)
  let v5 := gMix v4 0 5 10 15 (wd m 8) (wd m 9)
  let v6 := gMix v5 1 6 11 12 (wd m 10) (wd m 11)
  let v7 := gMix v6 2 7 8 13 (wd m 12) (wd m 13)
  gMix v7 3 4 9 14 (wd m 14) (wd m 15)

/-- The BLAKE3 message word permutation applied between rounds. -/
def permuteMsg (m : List Nat) : List Nat :=
  [wd m 2, wd m 6, wd m 3, wd m 10, wd m 7, wd m 0, wd m 4, wd m 13,
   wd m 1, wd m 11, wd m 12, wd m 5, wd m 9, wd m 14, wd m 15, wd m 8]

/-- The BLAKE3 compression function: 16 input words (8 chaining value, 4
IV words, the 64-bit block counter split into two words, the block byte
length and the flags), 7 rounds, then the feed-forward xor producing 16
output words. -/
def compress (cv blockWordList : List Nat) (counter blockLen flags : Nat) :
    List Nat :=
  let v0 := cv.take 8 ++ blake3IV.take 4 ++
    [counter % U32, counter / U32 % U32, blockLen, flags]
  let vm := (List.range 7).foldl
    (fun (vm : List Nat × List Nat) _ => (roundFn vm.1 vm.2, permuteMsg vm.2))
    (v0, blockWordList)
  (List.range 16).map fun i =>
    if i < 8 then Nat.xor (wd vm.1 i) (wd vm.1 (i + 8))
    else Nat.xor (wd vm.1 i) (wd cv (i - 8))

/-- A 64-byte block as 16 little-endian u32 words (zero padded). -/
def blockWords (block : List Nat) : List Nat :=
  (List.range 16).map fun i =>
    block.getD (4 * i) 0 + block.getD (4 * i + 1) 0 * 256 +
    block.getD (4 * i + 2) 0 * 65536 + block.getD (4 * i + 3) 0 * 16777216

/-- BLAKE3 of an input of at most one chunk (≤ 1024 bytes): the chunk is
the root, its 64-byte blocks are chained through `compress` with counter
0, the first block flagged `CHUNK_START` and the last `CHUNK_END | ROOT`;
the result is the 8-word chaining value of the final compression.  An
empty input is a single block of length 0. -/
def blake3ChunkRoot (data : List Nat) : List Nat :=
  let nBlocks := max 1 ((data.length + 63) / 64)
  (List.range nBlocks).foldl
    (fun cv j =>
      let block := (data.drop (64 * j)).take 64
      let flags := (if j = 0 then CHUNK_START else 0) +
        (if j = nBlocks - 1 then CHUNK_END + ROOT else 0)
      (compress cv (blockWords block) 0 block.length flags).take 8)
    blake3IV

/-- Little-endian byte serialization of u32 words. -/
def wordsToBytesLE (ws : List Nat) : List Nat :=
  ws.flatMap fun w => [w % 256, w / 256 % 256, w / 65536 % 256, w / 16777216 % 256]

/-- Lowercase hex digit. -/
def hexDigitChar (n : Nat) : Char :=
  if n < 10 then Char.ofNat (48 + n) else Char.ofNat (87 + n)

/-- Lowercase hex rendering of a byte string. -/
def hexEncode (bytes : List Nat) : String :=
  String.mk (bytes.flatMap fun b => [hexDigitChar (b / 16), hexDigitChar (b % 16)])

/-- `hasher.finalize().to_hex()` for a single-chunk input: the 256-bit
digest in lowercase hex (64 characters). -/
def blake3Hex (data : List Nat) : String :=
  hexEncode (wordsToBytesLE (blake3ChunkRoot data))

/-- A file system snapshot: each path is absent, a regular file with
contents, or something that is not a regular file. -/
inductive FsEntry where
  | file (contents : List Nat)
  | directory
  deriving Repr, DecidableEq

def FileSystem := String → Option FsEntry

/-- Embedding of `integrity.rs::calculate_file_hash`: bail if the path
does not exist or is not a regular file, otherwise hash the contents with
BLAKE3 and return the lowercase hex digest (single-chunk files). -/
def calculate_file_hash (fs : FileSystem) (path : String) : Except String String :=
  match fs path with
  | none => .error ("File does not exist: " ++ path)
  | some .directory => .error ("Path is not a file: " ++ path)
  | some (.file contents) => .ok (blake3Hex contents)

/-! ## Metadata store (`db.rs`)

The `files` table has schema `(path UNIQUE, last_modified, file_hash,
sync_status)`.  A table is modelled as a list of rows; a SQL `UPDATE …
WHERE path = ?` updates every row whose `path` column matches and reports
the number of affected rows, exactly as `rusqlite`'s `execute` does. -/

structure FileMetadata where
  path : String
  last_modified : Int
  file_hash : String
  sync_status : String
  deriving Repr, DecidableEq

/-- Errors surfaced by the store; `update_sync_status` maps zero affected
rows to `rusqlite::Error::QueryReturnedNoRows`. -/
inductive DbError where
  | queryReturnedNoRows
  deriving Repr, DecidableEq

/-- Semantics of `UPDATE files SET … WHERE path = ?2`: apply `f` to every
row whose path matches, and return the new table together with the number
of rows affected. -/
def sqlUpdateByPath (table : List FileMetadata) (path : String)
    (f : FileMetadata → FileMetadata) : List FileMetadata × Nat :=
  (table.map fun r => if r.path = path then f r else r,
   table.countP fun r => r.path = path)

/-- Embedding of `db.rs::update_sync_status`: run the update, then return
`Err(QueryReturnedNoRows)` iff zero rows were affected. -/
def update_sync_status (table : List FileMetadata) (path status : String) :
    Except DbError (List FileMetadata) :=
  let res := sqlUpdateByPath table path (fun r => { r with sync_status := status })
  if res.2 = 0 then .error .queryReturnedNoRows else .ok res.1

/-- Embedding of `db.rs::update_file_metadata`: the same `UPDATE` shape but
the affected-row count is discarded; the function always returns `Ok(())`
when the statement executes. -/
def update_file_metadata (table : List FileMetadata) (path : String)
    (last_modified : Int) (file_hash sync_status : String) :
    Except DbError (List FileMetadata) :=
  let res := sqlUpdateByPath table path
    (fun r => { r with last_modified := last_modified,
                       file_hash := file_hash,
                       sync_status := sync_status })
  .ok res.1

/-! ## Certificate pinning (`certificate.rs`)

`CustomCertVerifier::verify_server_cert` computes the hex SHA-256
fingerprint of the presented DER leaf and, when a trusted fingerprint was
pinned, rejects on mismatch.  SHA-256 itself is a library call and is a
parameter of the embedding. -/

/-- Embedding of `CustomCertVerifier::verify_server_cert` as built by
`TlsCertificate::build_client_config(trusted_fingerprint)`.
`sha256hex` models `TlsCertificate::calculate_fingerprint` (hex SHA-256 of
the DER bytes), which never fails. -/
def verify_server_cert (sha256hex : List Nat → String)
    (trusted_fingerprint : Option String) (end_entity : List Nat) :
    Except String Unit :=
  let fingerprint := sha256hex end_entity
  match trusted_fingerprint with
  | some trusted =>
      if fingerprint ≠ trusted then .error "Certificate fingerprint mismatch"
      else .ok ()
  | none => .ok ()

/-! ## Transfer protocol (`transfer.rs`)

Rust `String` and `Vec<u8>` values travelling in messages are modelled as
lists of byte values, so that the JSON wire form can also be stated at
the byte level. -/

/-- A byte string: the bytes of a Rust `String` or `Vec<u8>`. -/
abbrev ByteStr := List Nat

/-- Chunk size, 1 MiB (`transfer.rs::CHUNK_SIZE`). -/
def CHUNK_SIZE : Nat := 1024 * 1024

/-- The seven wire message kinds of `transfer.rs::TransferMessage`, with
fields in declaration order. -/
inductive TransferMessage where
  | transferRequest (transfer_id file_path : ByteStr) (file_size : Nat)
      (file_hash : ByteStr) (total_chunks : Nat)
  | transferAccept (transfer_id : ByteStr) (resume_from_chunk : Nat)
  | transferReject (transfer_id reason : ByteStr)
  | chunkData (transfer_id : ByteStr) (chunk_index : Nat)
      (chunk_hash : ByteStr) (data : List Nat)
  | chunkAck (transfer_id : ByteStr) (chunk_index : Nat)
  | transferComplete (transfer_id : ByteStr)
  | error (transfer_id message : ByteStr)
  deriving Repr, DecidableEq

/-- Whether a message is a `ChunkData`. -/
def TransferMessage.isChunkData : TransferMessage → Bool
  | .chunkData _ _ _ _ => true
  | _ => false

/-- Whether a message is a `TransferComplete`. -/
def TransferMessage.isTransferComplete : TransferMessage → Bool
  | .transferComplete _ => true
  | _ => false

/-- Observable side effects of `TransferServer::receive_file`, in the
order the code performs them: `write offset data` is `file.write_all` at
the current cursor, `ack i` is the `ChunkAck` written to the stream, and
`persist n` is `update_transfer_state(transfer_id, n)` writing
`received_chunks = n` to the `transfer_state` table. -/
inductive RecvEvent where
  | write (offset : Nat) (data : List Nat)
  | ack (chunk_index : Nat)
  | persist (received_chunks : Nat)
  deriving Repr, DecidableEq

/-- Session state of `receive_file`: the file cursor, the local
`received_chunks` counter, and the trace of effects so far. -/
structure RecvState where
  pos : Nat
  received_chunks : Nat
  trace : List RecvEvent
  deriving Repr, DecidableEq

/-- State at entry of the chunk loop: the file cursor sits at
`resume_from * CHUNK_SIZE` (the seek target; for `resume_from = 0` no
seek happens and the cursor is 0, the same value) and the counter starts
at `resume_from`. -/
def initRecvState (resume_from : Nat) : RecvState :=
  ⟨resume_from * CHUNK_SIZE, resume_from, []⟩

/-- Errors that abort `receive_file` (`anyhow::bail!` sites and a closed
stream in `from_stream`). -/
inductive RecvError where
  | chunkHashMismatch (index : Nat)
  | streamClosed
  deriving Repr, DecidableEq

/-- Result of one iteration of the chunk loop. -/
inductive StepResult where
  | next (st : RecvState)
  | complete (st : RecvState)
  | fail (st : RecvState) (e : RecvError)
  deriving Repr, DecidableEq

/-- One iteration of the `while received_chunks < total_chunks` loop of
`receive_file`, given the already-read message.  `sha256hex` models the
hex SHA-256 of the chunk bytes.  On a hash-matching `ChunkData` the code
writes at the current cursor, increments the counter, sends the ACK, and
then updates the `transfer_state` row — in that order.  `TransferComplete`
breaks the loop; every other kind is logged and ignored. -/
def receiveStep (sha256hex : List Nat → ByteStr) (st : RecvState) :
    TransferMessage → StepResult
  | .chunkData _ chunk_index chunk_hash data =>
      if sha256hex data ≠ chunk_hash then
        .fail st (.chunkHashMismatch chunk_index)
      else
        .next { pos := st.pos + data.length,
                received_chunks := st.received_chunks + 1,
                trace := st.trace ++
                  [.write st.pos data, .ack chunk_index,
                   .persist (st.received_chunks + 1)] }
  | .transferComplete _ => .complete st
  | _ => .next st

/-- The chunk loop of `receive_file` over the incoming message sequence.
An empty stream while chunks are still expected models `from_stream`
failing on a closed connection.  On error the state at the moment of
failure is returned: nothing written or persisted is undone. -/
def receiveRun (sha256hex : List Nat → ByteStr) (total_chunks : Nat) :
    RecvState → List TransferMessage → Except (RecvError × RecvState) RecvState
  | st, msgs =>
    if st.received_chunks < total_chunks then
      match msgs with
      | [] => .error (.streamClosed, st)
      | m :: rest =>
          match receiveStep sha256hex st m with
          | .fail st' e => .error (e, st')
          | .complete st' => .ok st'
          | .next st' => receiveRun sha256hex total_chunks st' rest
    else .ok st

/-- Embedding of `TransferServer::get_resume_chunk`: the `transfer_state`
table keyed by `transfer_id` is an association list to the stored
`received_chunks`; `unwrap_or(0)` maps a missing row to 0. -/
def get_resume_chunk (transfer_state : List (ByteStr × Nat))
    (transfer_id : ByteStr) : Nat :=
  (transfer_state.lookup transfer_id).getD 0

/-- The request/accept prefix of `TransferServer::handle_client`: a
`TransferRequest` is answered with `TransferAccept` carrying the resume
chunk looked up in `transfer_state`; any other first message aborts. -/
def handleRequestReply (transfer_state : List (ByteStr × Nat)) :
    TransferMessage → Except String TransferMessage
  | .transferRequest transfer_id _ _ _ _ =>
      .ok (.transferAccept transfer_id (get_resume_chunk transfer_state transfer_id))
  | _ => .error "Expected TransferRequest"

/-! ## Wire form of transfer messages (`transfer.rs::TransferMessage`)

`to_bytes` is `serde_json::to_vec` (derived `Serialize` with internal tag
`"type"`, fields in declaration order, strings escaped as serde_json does,
`Vec<u8>` as a JSON array of decimal numbers) framed by a big-endian u32
length prefix (`put_u32(json.len() as u32)`, hence `% 2^32`).
`from_stream` reads the length, takes exactly that many payload bytes and
deserializes; the model parser accepts the canonical byte form that the
serializer emits, which is what a round trip exercises.  Bytes are `Nat`
values; a real stream carries values below 256, and the round trip does
not depend on that bound. -/

def litBytes (s : String) : List Nat := s.data.map Char.toNat

def hexDigitByte (n : Nat) : Nat := if n < 10 then 48 + n else 87 + n

def jsonEscapeByte (b : Nat) : List Nat :=
  if b = 34 then [92, 34]
  else if b = 92 then [92, 92]
  else if b = 8 then [92, 98]
  else if b = 9 then [92, 116]
  else if b = 10 then [92, 110]
  else if b = 12 then [92, 102]
  else if b = 13 then [92, 114]
  else if b < 32 then [92, 117, 48, 48, hexDigitByte (b / 16), hexDigitByte (b % 16)]
  else [b]

def escStr (s : ByteStr) : List Nat := s.flatMap jsonEscapeByte

def jsonString (s : ByteStr) : List Nat := [34] ++ escStr s ++ [34]

def natDigitsAux : Nat → Nat → List Nat
  | 0, _ => []
  | Nat.succ f, n => if n < 10 then [48 + n] else natDigitsAux f (n / 10) ++ [48 + n % 10]

def natDigits (n : Nat) : List Nat := natDigitsAux (n + 1) n

def jsonNatListBytes : List Nat → List Nat
  | [] => []
  | x :: xs => natDigits x ++ xs.flatMap (fun y => 44 :: natDigits y)

def jsonMember (name : String) (value : List Nat) : List Nat :=
  [34] ++ litBytes name ++ [34, 58] ++ value

def jsonEncodeMsg : TransferMessage → List Nat
  | .transferRequest tid fp fsz fh tc =>
      [123] ++ jsonMember "type" (jsonString (litBytes "TransferRequest")) ++ [44]
        ++ jsonMember "transfer_id" (jsonString tid) ++ [44]
        ++ jsonMember "file_path" (jsonString fp) ++ [44]
        ++ jsonMember "file_size" (natDigits fsz) ++ [44]
        ++ jsonMember "file_hash" (jsonString fh) ++ [44]
        ++ jsonMember "total_chunks" (natDigits tc) ++ [125]
  | .transferAccept tid rfc =>
      [123] ++ jsonMember "type" (jsonString (litBytes "TransferAccept")) ++ [44]
        ++ jsonMember "transfer_id" (jsonString tid) ++ [44]
        ++ jsonMember "resume_from_chunk" (natDigits rfc) ++ [125]
  | .transferReject tid reason =>
      [123] ++ jsonMember "type" (jsonString (litBytes "TransferReject")) ++ [44]
        ++ jsonMember "transfer_id" (jsonString tid) ++ [44]
        ++ jsonMember "reason" (jsonString reason) ++ [125]
  | .chunkData tid ci ch data =>
      [123] ++ jsonMember "type" (jsonString (litBytes "ChunkData")) ++ [44]
        ++ jsonMember "transfer_id" (jsonString tid) ++ [44]
        ++ jsonMember "chunk_index" (natDigits ci) ++ [44]
        ++ jsonMember "chunk_hash" (jsonString ch) ++ [44]
        ++ jsonMember "data" ([91] ++ jsonNatListBytes data ++ [93]) ++ [125]
  | .chunkAck tid ci =>
      [123] ++ jsonMember "type" (jsonString (litBytes "ChunkAck")) ++ [44]
        ++ jsonMember "transfer_id" (jsonString tid) ++ [44]
        ++ jsonMember "chunk_index" (natDigits ci) ++ [125]
  | .transferComplete tid =>
      [123] ++ jsonMember "type" (jsonString (litBytes "TransferComplete")) ++ [44]
        ++ jsonMember "transfer_id" (jsonString tid) ++ [125]
  | .error tid message =>
      [123] ++ jsonMember "type" (jsonString (litBytes "Error")) ++ [44]
        ++ jsonMember "transfer_id" (jsonString tid) ++ [44]
        ++ jsonMember "message" (jsonString message) ++ [125]

def be32 (n : Nat) : List Nat :=
  [n / 2 ^ 24 % 256, n / 2 ^ 16 % 256, n / 2 ^ 8 % 256, n % 256]

def TransferMessage.to_bytes (m : TransferMessage) : List Nat :=
  be32 ((jsonEncodeMsg m).length % 2 ^ 32) ++ jsonEncodeMsg m

/-! Decoder: model of from_stream / serde_json::from_slice on the
canonical wire form. -/

def expectBytes : List Nat → List Nat → Option (List Nat)
  | [], input => some input
  | _ :: _, [] => none
  | l :: ls, b :: bs => if b = l then expectBytes ls bs else none

def hexVal (b : Nat) : Option Nat :=
  if 48 ≤ b ∧ b ≤ 57 then some (b - 48)
  else if 97 ≤ b ∧ b ≤ 102 then some (b - 87)
  else if 65 ≤ b ∧ b ≤ 70 then some (b - 55)
  else none

def parseStringBody : List Nat → Option (ByteStr × List Nat)
  | [] => none
  | b :: rest =>
    if b = 34 then some ([], rest)
    else if b = 92 then
      match rest with
      | [] => none
      | e :: rest2 =>
        if e = 34 then (fun p => (34 :: p.1, p.2)) <$> parseStringBody rest2
        else if e = 92 then (fun p => (92 :: p.1, p.2)) <$> parseStringBody rest2
        else if e = 98 then (fun p => (8 :: p.1, p.2)) <$> parseStringBody rest2
        else if e = 116 then (fun p => (9 :: p.1, p.2)) <$> parseStringBody rest2
        else if e = 110 then (fun p => (10 :: p.1, p.2)) <$> parseStringBody rest2
        else if e = 102 then (fun p => (12 :: p.1, p.2)) <$> parseStringBody rest2
        else if e = 114 then (fun p => (13 :: p.1, p.2)) <$> parseStringBody rest2
        else if e = 117 then
          match rest2 with
          | h1 :: h2 :: h3 :: h4 :: rest3 =>
            match hexVal h1, hexVal h2, hexVal h3, hexVal h4 with
            | some d1, some d2, some d3, some d4 =>
                (fun p => ((((d1 * 16 + d2) * 16 + d3) * 16 + d4) :: p.1, p.2)) <$>
                  parseStringBody rest3
            | _, _, _, _ => none
          | _ => none
        else none
    else (fun p => (b :: p.1, p.2)) <$> parseStringBody rest

def isDigitByte (b : Nat) : Bool := decide (48 ≤ b ∧ b ≤ 57)

def consumeDigits : List Nat → Nat → Nat × List Nat
  | [], acc => (acc, [])
  | b :: rest, acc =>
      if isDigitByte b then consumeDigits rest (acc * 10 + (b - 48))
      else (acc, b :: rest)

def parseNat : List Nat → Option (Nat × List Nat)
  | [] => none
  | b :: rest =>
      if isDigitByte b then some (consumeDigits (b :: rest) 0) else none

def parseNatListTail (fuel : Nat) (input : List Nat) : Option (List Nat × List Nat) :=
  match input with
  | [] => none
  | b :: rest =>
      if b = 93 then some ([], rest)
      else if b = 44 then
        match fuel with
        | 0 => none
        | Nat.succ f =>
            match parseNat rest with
            | some (n, rest2) =>
                match parseNatListTail f rest2 with
                | some (ns, rest3) => some (n :: ns, rest3)
                | none => none
            | none => none
      else none

def parseNatList (fuel : Nat) (input : List Nat) : Option (List Nat × List Nat) :=
  match input with
  | [] => none
  | b :: rest =>
      if b = 93 then some ([], rest)
      else
        match parseNat (b :: rest) with
        | some (n, rest2) =>
            match parseNatListTail fuel rest2 with
            | some (ns, rest3) => some (n :: ns, rest3)
            | none => none
        | none => none

def parseRequestBody (r2 : List Nat) : Option (TransferMessage × List Nat) := do
  let r3 ← expectBytes ([44, 34] ++ litBytes "transfer_id" ++ [34, 58, 34]) r2
  let (tid, r4) ← parseStringBody r3
  let r5 ← expectBytes ([44, 34] ++ litBytes "file_path" ++ [34, 58, 34]) r4
  let (fp, r6) ← parseStringBody r5
  let r7 ← expectBytes ([44, 34] ++ litBytes "file_size" ++ [34, 58]) r6
  let (fsz, r8) ← parseNat r7
  let r9 ← expectBytes ([44, 34] ++ litBytes "file_hash" ++ [34, 58, 34]) r8
  let (fh, r10) ← parseStringBody r9
  let r11 ← expectBytes ([44, 34] ++ litBytes "total_chunks" ++ [34, 58]) r10
  let (tc, r12) ← parseNat r11
  let r13 ← expectBytes [125] r12
  some (.transferRequest tid fp fsz fh tc, r13)

def parseAcceptBody (r2 : List Nat) : Option (TransferMessage × List Nat) := do
  let r3 ← expectBytes ([44, 34] ++ litBytes "transfer_id" ++ [34, 58, 34]) r2
  let (tid, r4) ← parseStringBody r3
  let r5 ← expectBytes ([44, 34] ++ litBytes "resume_from_chunk" ++ [34, 58]) r4
  let (rfc, r6) ← parseNat r5
  let r7 ← expectBytes [125] r6
  some (.transferAccept tid rfc, r7)

def parseRejectBody (r2 : List Nat) : Option (TransferMessage × List Nat) := do
  let r3 ← expectBytes ([44, 34] ++ litBytes "transfer_id" ++ [34, 58, 34]) r2
  let (tid, r4) ← parseStringBody r3
  let r5 ← expectBytes ([44, 34] ++ litBytes "reason" ++ [34, 58, 34]) r4
  let (reason, r6) ← parseStringBody r5
  let r7 ← expectBytes [125] r6
  some (.transferReject tid reason, r7)

def parseChunkDataBody (r2 : List Nat) : Option (TransferMessage × List Nat) := do
  let r3 ← expectBytes ([44, 34] ++ litBytes "transfer_id" ++ [34, 58, 34]) r2
  let (tid, r4) ← parseStringBody r3
  let r5 ← expectBytes ([44, 34] ++ litBytes "chunk_index" ++ [34, 58]) r4
  let (ci, r6) ← parseNat r5
  let r7 ← expectBytes ([44, 34] ++ litBytes "chunk_hash" ++ [34, 58, 34]) r6
  let (ch, r8) ← parseStringBody r7
  let r9 ← expectBytes ([44, 34] ++ litBytes "data" ++ [34, 58, 91]) r8
  let (data, r10) ← parseNatList r9.length r9
  let r11 ← expectBytes [125] r10
  some (.chunkData tid ci ch data, r11)

def parseChunkAckBody (r2 : List Nat) : Option (TransferMessage × List Nat) := do
  let r3 ← expectBytes ([44, 34] ++ litBytes "transfer_id" ++ [34, 58, 34]) r2
  let (tid, r4) ← parseStringBody r3
  let r5 ← expectBytes ([44, 34] ++ litBytes "chunk_index" ++ [34, 58]) r4
  let (ci, r6) ← parseNat r5
  let r7 ← expectBytes [125] r6
  some (.chunkAck tid ci, r7)

def parseCompleteBody (r2 : List Nat) : Option (TransferMessage × List Nat) := do
  let r3 ← expectBytes ([44, 34] ++ litBytes "transfer_id" ++ [34, 58, 34]) r2
  let (tid, r4) ← parseStringBody r3
  let r5 ← expectBytes [125] r4
  some (.transferComplete tid, r5)

def parseErrorBody (r2 : List Nat) : Option (TransferMessage × List Nat) := do
  let r3 ← expectBytes ([44, 34] ++ litBytes "transfer_id" ++ [34, 58, 34]) r2
  let (tid, r4) ← parseStringBody r3
  let r5 ← expectBytes ([44, 34] ++ litBytes "message" ++ [34, 58, 34]) r4
  let (message, r6) ← parseStringBody r5
  let r7 ← expectBytes [125] r6
  some (.error tid message, r7)

def parseMsg (input : List Nat) : Option (TransferMessage × List Nat) := do
  let r1 ← expectBytes ([123, 34] ++ litBytes "type" ++ [34, 58, 34]) input
  let (tag, r2) ← parseStringBody r1
  if tag = litBytes "TransferRequest" then parseRequestBody r2
  else if tag = litBytes "TransferAccept" then parseAcceptBody r2
  else if tag = litBytes "TransferReject" then parseRejectBody r2
  else if tag = litBytes "ChunkData" then parseChunkDataBody r2
  else if tag = litBytes "ChunkAck" then parseChunkAckBody r2
  else if tag = litBytes "TransferComplete" then parseCompleteBody r2
  else if tag = litBytes "Error" then parseErrorBody r2
  else none

def jsonDecodeMsg (payload : List Nat) : Option TransferMessage :=
  match parseMsg payload with
  | some (m, []) => some m
  | _ => none

def readU32 : List Nat → Option (Nat × List Nat)
  | b0 :: b1 :: b2 :: b3 :: rest =>
      some (b0 * 2 ^ 24 + b1 * 2 ^ 16 + b2 * 2 ^ 8 + b3, rest)
  | _ => none

def TransferMessage.from_stream (stream : List Nat) :
    Option (TransferMessage × List Nat) :=
  match readU32 stream with
  | none => none
  | some (len, rest) =>
      if len ≤ rest.length then
        match jsonDecodeMsg (rest.take len) with
        | some m => some (m, rest.drop len)
        | none => none
      else none

/-! ## Discovery beacons (`discovery.rs`)

`BeaconMessage::verify` first checks freshness with u64 arithmetic
(`current_time > self.timestamp + 30`, wrapping on overflow in release
builds) and then compares the stored signature against a freshly computed
hex HMAC-SHA-256 over `device_id ∥ device_name ∥ decimal(timestamp) ∥
protocol_version`.  The HMAC primitive is a parameter. -/

def U64 : Nat := 2 ^ 64

structure BeaconMessage where
  device_id : String
  device_name : String
  timestamp : Nat
  protocol_version : String
  signature : String
  deriving Repr, DecidableEq

/-- The exact byte string signed by `BeaconMessage::new` and re-signed by
`BeaconMessage::verify`: `format!("{}{}{}{}", device_id, device_name,
timestamp, protocol_version)`. -/
def BeaconMessage.dataToSign (b : BeaconMessage) : String :=
  b.device_id ++ b.device_name ++ toString b.timestamp ++ b.protocol_version

/-- Embedding of `BeaconMessage::verify`.  `hmacHex key data` models
`generate_signature(data, key)`, the hex HMAC-SHA-256 under `key`.
`now` is the current epoch second; the `+ 30` is u64 addition and hence
reduced `% 2^64`. -/
def BeaconMessage.verify (hmacHex : String → String → String)
    (now : Nat) (b : BeaconMessage) (key : String) : Bool :=
  if now > (b.timestamp + 30) % U64 then
    false
  else
    hmacHex key b.dataToSign == b.signature

/-! ## Claim C10

Round-trip lemmas for the wire codec: literal stripping, string escaping,
decimal digits, byte arrays, then the seven message kinds. -/

theorem expectBytes_nil (input : List Nat) : expectBytes [] input = some input := rfl

theorem expectBytes_cons (b : Nat) (ls input : List Nat) :
    expectBytes (b :: ls) (b :: input) = expectBytes ls input := by
  simp [expectBytes]

theorem expectBytes_append_left (l ls input : List Nat) :
    expectBytes (l ++ ls) (l ++ input) = expectBytes ls input := by
  induction l with
  | nil => rfl
  | cons b bs ih => simpa [expectBytes] using ih

theorem hexVal_hexDigitByte (x : Nat) (h : x < 16) :
    hexVal (hexDigitByte x) = some x := by
  interval_cases x <;> decide

theorem parseStringBody_escape (s : ByteStr) (rest : List Nat) :
    parseStringBody (escStr s ++ 34 :: rest) = some (s, rest) := by
  induction s with
  | nil =>
      simp only [escStr, List.flatMap_nil, List.nil_append]
      rw [parseStringBody.eq_def]
      simp
  | cons b s ih =>
      have hesc : escStr (b :: s) ++ 34 :: rest =
          jsonEscapeByte b ++ (escStr s ++ 34 :: rest) := by
        simp [escStr]
      rw [hesc]
      unfold jsonEscapeByte
      by_cases h34 : b = 34
      · subst h34
        simp only [if_true, List.cons_append, List.nil_append]
        rw [parseStringBody.eq_def]; simp [ih]
      by_cases h92 : b = 92
      · subst h92
        simp only [h34, if_false, if_true, List.cons_append, List.nil_append]
        rw [parseStringBody.eq_def]; simp [ih]
      by_cases h8 : b = 8
      · subst h8
        simp only [h34, h92, if_false, if_true, List.cons_append, List.nil_append]
        rw [parseStringBody.eq_def]; simp [ih]
      by_cases h9 : b = 9
      · subst h9
        simp only [h34, h92, h8, if_false, if_true, List.cons_append, List.nil_append]
        rw [parseStringBody.eq_def]; simp [ih]
      by_cases h10 : b = 10
      · subst h10
        simp only [h34, h92, h8, h9, if_false, if_true, List.cons_append, List.nil_append]
        rw [parseStringBody.eq_def]; simp [ih]
      by_cases h12 : b = 12
      · subst h12
        simp only [h34, h92, h8, h9, h10, if_false, if_true, List.cons_append,
          List.nil_append]
        rw [parseStringBody.eq_def]; simp [ih]
      by_cases h13 : b = 13
      · subst h13
        simp only [h34, h92, h8, h9, h10, h12, if_false, if_true, List.cons_append,
          List.nil_append]
        rw [parseStringBody.eq_def]; simp [ih]
      by_cases hctl : b < 32
      · have hd1 : hexVal (hexDigitByte (b / 16)) = some (b / 16) :=
          hexVal_hexDigitByte _ (by omega)
        have hd2 : hexVal (hexDigitByte (b % 16)) = some (b % 16) :=
          hexVal_hexDigitByte _ (by omega)
        have hd0 : hexVal 48 = some 0 := by decide
        simp only [h34, h92, h8, h9, h10, h12, h13, hctl, if_false, if_true,
          List.cons_append, List.nil_append]
        rw [parseStringBody.eq_def]
        simp only [hd0, hd1, hd2, ih]
        norm_num
        omega
      · simp only [h34, h92, h8, h9, h10, h12, h13, hctl, if_false,
          List.cons_append, List.nil_append]
        rw [parseStringBody.eq_def]
        simp [ih, h34, h92]

theorem natDigitsAux_stable (fuel1 : Nat) :
    ∀ fuel2 n, n < fuel1 → n < fuel2 → natDigitsAux fuel1 n = natDigitsAux fuel2 n := by
  induction fuel1 with
  | zero => omega
  | succ f ih =>
      intro fuel2 n h1 h2
      match fuel2, h2 with
      | Nat.succ g, h2 =>
        rw [natDigitsAux, natDigitsAux]
        by_cases h : n < 10
        · simp [h]
        · simp only [h, if_false]
          congr 1
          exact ih g (n / 10) (by omega) (by omega)

theorem natDigits_unfold (n : Nat) :
    natDigits n = if n < 10 then [48 + n] else natDigits (n / 10) ++ [48 + n % 10] := by
  rw [natDigits, natDigitsAux]
  by_cases h : n < 10
  · simp [h]
  · simp only [h, if_false]
    congr 1
    exact natDigitsAux_stable n (n / 10 + 1) (n / 10) (by omega) (by omega)

theorem natDigits_all_digits (n : Nat) : ∀ b ∈ natDigits n, 48 ≤ b ∧ b ≤ 57 := by
  induction n using Nat.strong_induction_on with
  | _ n ih =>
    rw [natDigits_unfold]
    by_cases h : n < 10
    · simp only [h, if_true, List.mem_singleton]
      rintro b rfl
      omega
    · simp only [h, if_false]
      intro b hb
      rcases List.mem_append.mp hb with h1 | h2
      · exact ih (n / 10) (Nat.div_lt_self (by omega) (by omega)) b h1
      · rw [List.mem_singleton] at h2
        subst h2
        omega

theorem natDigits_ne_nil (n : Nat) : natDigits n ≠ [] := by
  rw [natDigits_unfold]
  by_cases h : n < 10 <;> simp [h]

theorem consumeDigits_natDigits (n : Nat) :
    ∀ rest acc, consumeDigits (natDigits n ++ rest) acc =
      consumeDigits rest (acc * 10 ^ (natDigits n).length + n) := by
  induction n using Nat.strong_induction_on with
  | _ n ih =>
    intro rest acc
    rw [natDigits_unfold]
    by_cases h : n < 10
    · simp only [h, if_true, List.cons_append, List.nil_append, List.length_cons,
        List.length_nil]
      rw [consumeDigits]
      have hdig : isDigitByte (48 + n) = true := by
        simp [isDigitByte]
        omega
      simp only [hdig, if_true]
      congr 1
      omega
    · simp only [h, if_false, List.append_assoc, List.cons_append, List.nil_append,
        List.length_append, List.length_cons, List.length_nil]
      rw [ih (n / 10) (Nat.div_lt_self (by omega) (by omega))]
      rw [consumeDigits]
      have hdig : isDigitByte (48 + n % 10) = true := by
        simp [isDigitByte]
        omega
      simp only [hdig, if_true]
      congr 1
      have hexp : (acc * 10 ^ (natDigits (n / 10)).length + n / 10) * 10 +
          (48 + n % 10 - 48) =
          acc * (10 ^ (natDigits (n / 10)).length * 10) +
          (n / 10 * 10 + (48 + n % 10 - 48)) := by ring_nf
      rw [hexp, pow_succ]
      congr 1
      omega

theorem parseNat_natDigits (n b : Nat) (rest : List Nat)
    (h : isDigitByte b = false) :
    parseNat (natDigits n ++ b :: rest) = some (n, b :: rest) := by
  obtain ⟨d, t, hdt⟩ : ∃ d t, natDigits n = d :: t := by
    cases hnd : natDigits n with
    | nil => exact absurd hnd (natDigits_ne_nil n)
    | cons d t => exact ⟨d, t, rfl⟩
  have hd_digit : isDigitByte d = true := by
    have := natDigits_all_digits n d (by rw [hdt]; simp)
    simp [isDigitByte]
    omega
  rw [hdt, List.cons_append, parseNat]
  simp only [hd_digit, if_true]
  rw [← List.cons_append, ← hdt, consumeDigits_natDigits]
  rw [consumeDigits]
  simp [h]

theorem parseNatListTail_encode (bs : List Nat) :
    ∀ fuel rest, bs.length ≤ fuel →
      parseNatListTail fuel
          (bs.flatMap (fun x => 44 :: natDigits x) ++ 93 :: rest) =
        some (bs, rest) := by
  induction bs with
  | nil =>
      intro fuel rest _
      rw [List.flatMap_nil, List.nil_append, parseNatListTail.eq_def]
      simp
  | cons x bs ih =>
      intro fuel rest h
      match fuel with
      | 0 => simp at h
      | Nat.succ f =>
        have hbs : bs.length ≤ f := by
          simp only [List.length_cons] at h
          omega
        have hparse : parseNat (natDigits x ++
            (bs.flatMap (fun x => 44 :: natDigits x) ++ 93 :: rest)) =
            some (x, bs.flatMap (fun x => 44 :: natDigits x) ++ 93 :: rest) := by
          cases bs with
          | nil => simpa using parseNat_natDigits x 93 rest (by decide)
          | cons y ys =>
              simpa using parseNat_natDigits x 44
                (natDigits y ++ (ys.flatMap (fun x => 44 :: natDigits x) ++ 93 :: rest))
                (by decide)
        rw [List.flatMap_cons]
        simp only [List.cons_append, List.append_assoc]
        rw [parseNatListTail.eq_def]
        simp [hparse, ih f rest hbs]

theorem flatMap_comma_length (xs : List Nat) :
    xs.length ≤ (xs.flatMap (fun y => 44 :: natDigits y)).length := by
  induction xs with
  | nil => simp
  | cons y ys ih =>
      rw [List.flatMap_cons]
      simp only [List.length_append, List.length_cons]
      omega

theorem natDigits_cons (n : Nat) : ∃ d t, natDigits n = d :: t := by
  cases hnd : natDigits n with
  | nil => exact absurd hnd (natDigits_ne_nil n)
  | cons d t => exact ⟨d, t, rfl⟩

theorem parseNatList_encode (bs rest : List Nat) (fuel : Nat)
    (h : bs.length ≤ fuel) :
    parseNatList fuel (jsonNatListBytes bs ++ 93 :: rest) = some (bs, rest) := by
  cases bs with
  | nil =>
      rw [jsonNatListBytes, List.nil_append, parseNatList.eq_def]
      simp
  | cons x xs =>
      rw [jsonNatListBytes]
      simp only [List.append_assoc]
      obtain ⟨d, t, hdt⟩ := natDigits_cons x
      have hd_digit : 48 ≤ d ∧ d ≤ 57 :=
        natDigits_all_digits x d (by rw [hdt]; simp)
      have hxs : xs.length ≤ fuel := by
        simp only [List.length_cons] at h
        omega
      have hparse : parseNat (natDigits x ++
          (xs.flatMap (fun y => 44 :: natDigits y) ++ 93 :: rest)) =
          some (x, xs.flatMap (fun y => 44 :: natDigits y) ++ 93 :: rest) := by
        cases xs with
        | nil => simpa using parseNat_natDigits x 93 rest (by decide)
        | cons y ys =>
            simpa using parseNat_natDigits x 44
              (natDigits y ++ (ys.flatMap (fun y => 44 :: natDigits y) ++ 93 :: rest))
              (by decide)
      have hcons : d :: (t ++ (xs.flatMap (fun y => 44 :: natDigits y) ++ 93 :: rest)) =
          natDigits x ++ (xs.flatMap (fun y => 44 :: natDigits y) ++ 93 :: rest) := by
        rw [hdt, List.cons_append]
      rw [hdt, List.cons_append, parseNatList.eq_def]
      have hd93 : ¬ d = 93 := by omega
      simp only [hd93, if_false]
      rw [hcons, hparse]
      simp [parseNatListTail_encode xs fuel rest hxs]

theorem jsonNatListBytes_length_ge (bs : List Nat) :
    bs.length ≤ (jsonNatListBytes bs).length := by
  cases bs with
  | nil => simp [jsonNatListBytes]
  | cons x xs =>
      rw [jsonNatListBytes]
      simp only [List.length_append, List.length_cons]
      have h1 : 0 < (natDigits x).length := List.length_pos.mpr (natDigits_ne_nil x)
      have h2 := flatMap_comma_length xs
      omega

theorem parseNatList_encode_len (bs rest : List Nat) :
    parseNatList (jsonNatListBytes bs ++ 93 :: rest).length
      (jsonNatListBytes bs ++ 93 :: rest) = some (bs, rest) :=
  parseNatList_encode bs rest _ (by
    simp only [List.length_append, List.length_cons]
    have := jsonNatListBytes_length_ge bs
    omega)

theorem lit_tag_Request : litBytes "TransferRequest" =
    [84, 114, 97, 110, 115, 102, 101, 114, 82, 101, 113, 117, 101, 115, 116] := by decide

theorem lit_tag_Accept : litBytes "TransferAccept" =
    [84, 114, 97, 110, 115, 102, 101, 114, 65, 99, 99, 101, 112, 116] := by decide

theorem lit_tag_Reject : litBytes "TransferReject" =
    [84, 114, 97, 110, 115, 102, 101, 114, 82, 101, 106, 101, 99, 116] := by decide

theorem lit_tag_ChunkData : litBytes "ChunkData" =
    [67, 104, 117, 110, 107, 68, 97, 116, 97] := by decide

theorem lit_tag_ChunkAck : litBytes "ChunkAck" =
    [67, 104, 117, 110, 107, 65, 99, 107] := by decide

theorem lit_tag_Complete : litBytes "TransferComplete" =
    [84, 114, 97, 110, 115, 102, 101, 114, 67, 111, 109, 112, 108, 101, 116, 101] := by decide

theorem lit_tag_Error : litBytes "Error" = [69, 114, 114, 111, 114] := by decide

theorem parseMsg_enc_request (tid fp fh : ByteStr) (fsz tc : Nat) :
    parseMsg (jsonEncodeMsg (.transferRequest tid fp fsz fh tc)) =
      some (.transferRequest tid fp fsz fh tc, []) := by
  simp [parseMsg, parseRequestBody, jsonEncodeMsg, jsonMember, jsonString,
    List.append_assoc, List.cons_append, List.nil_append,
    expectBytes_cons, expectBytes_append_left, expectBytes_nil,
    parseStringBody_escape, parseNat_natDigits, isDigitByte]

theorem parseMsg_enc_accept (tid : ByteStr) (rfc : Nat) :
    parseMsg (jsonEncodeMsg (.transferAccept tid rfc)) =
      some (.transferAccept tid rfc, []) := by
  simp [parseMsg, parseAcceptBody, jsonEncodeMsg, jsonMember, jsonString,
    List.append_assoc, List.cons_append, List.nil_append,
    expectBytes_cons, expectBytes_append_left, expectBytes_nil,
    parseStringBody_escape, parseNat_natDigits, isDigitByte,
    lit_tag_Request, lit_tag_Accept]

theorem parseMsg_enc_reject (tid reason : ByteStr) :
    parseMsg (jsonEncodeMsg (.transferReject tid reason)) =
      some (.transferReject tid reason, []) := by
  simp [parseMsg, parseRejectBody, jsonEncodeMsg, jsonMember, jsonString,
    List.append_assoc, List.cons_append, List.nil_append,
    expectBytes_cons, expectBytes_append_left, expectBytes_nil,
    parseStringBody_escape, lit_tag_Request, lit_tag_Accept, lit_tag_Reject]

theorem parseMsg_enc_chunkData (tid ch : ByteStr) (ci : Nat) (data : List Nat) :
    parseMsg (jsonEncodeMsg (.chunkData tid ci ch data)) =
      some (.chunkData tid ci ch data, []) := by
  have hlen : parseNatList ((jsonNatListBytes data).length + 2)
      (jsonNatListBytes data ++ [93, 125]) = some (data, [125]) := by
    have h := parseNatList_encode data [125] ((jsonNatListBytes data).length + 2)
      (by have := jsonNatListBytes_length_ge data; omega)
    simpa using h
  simp [parseMsg, parseChunkDataBody, jsonEncodeMsg, jsonMember, jsonString,
    List.append_assoc, List.cons_append, List.nil_append,
    expectBytes_cons, expectBytes_append_left, expectBytes_nil,
    parseStringBody_escape, parseNat_natDigits, hlen,
    isDigitByte, lit_tag_Request, lit_tag_Accept, lit_tag_Reject,
    lit_tag_ChunkData]

theorem parseMsg_enc_chunkAck (tid : ByteStr) (ci : Nat) :
    parseMsg (jsonEncodeMsg (.chunkAck tid ci)) = some (.chunkAck tid ci, []) := by
  simp [parseMsg, parseChunkAckBody, jsonEncodeMsg, jsonMember, jsonString,
    List.append_assoc, List.cons_append, List.nil_append,
    expectBytes_cons, expectBytes_append_left, expectBytes_nil,
    parseStringBody_escape, parseNat_natDigits, isDigitByte,
    lit_tag_Request, lit_tag_Accept, lit_tag_Reject, lit_tag_ChunkData,
    lit_tag_ChunkAck]

theorem parseMsg_enc_complete (tid : ByteStr) :
    parseMsg (jsonEncodeMsg (.transferComplete tid)) =
      some (.transferComplete tid, []) := by
  simp [parseMsg, parseCompleteBody, jsonEncodeMsg, jsonMember, jsonString,
    List.append_assoc, List.cons_append, List.nil_append,
    expectBytes_cons, expectBytes_append_left, expectBytes_nil,
    parseStringBody_escape, lit_tag_Request, lit_tag_Accept, lit_tag_Reject,
    lit_tag_ChunkData, lit_tag_ChunkAck, lit_tag_Complete]

theorem parseMsg_enc_error (tid message : ByteStr) :
    parseMsg (jsonEncodeMsg (.error tid message)) =
      some (.error tid message, []) := by
  simp [parseMsg, parseErrorBody, jsonEncodeMsg, jsonMember, jsonString,
    List.append_assoc, List.cons_append, List.nil_append,
    expectBytes_cons, expectBytes_append_left, expectBytes_nil,
    parseStringBody_escape, lit_tag_Request, lit_tag_Accept, lit_tag_Reject,
    lit_tag_ChunkData, lit_tag_ChunkAck, lit_tag_Complete, lit_tag_Error]

theorem parseMsg_encode (m : TransferMessage) :
    parseMsg (jsonEncodeMsg m) = some (m, []) := by
  cases m with
  | transferRequest tid fp fsz fh tc => exact parseMsg_enc_request tid fp fh fsz tc
  | transferAccept tid rfc => exact parseMsg_enc_accept tid rfc
  | transferReject tid reason => exact parseMsg_enc_reject tid reason
  | chunkData tid ci ch data => exact parseMsg_enc_chunkData tid ch ci data
  | chunkAck tid ci => exact parseMsg_enc_chunkAck tid ci
  | transferComplete tid => exact parseMsg_enc_complete tid
  | error tid message => exact parseMsg_enc_error tid message

theorem jsonDecodeMsg_encode (m : TransferMessage) :
    jsonDecodeMsg (jsonEncodeMsg m) = some m := by
  rw [jsonDecodeMsg, parseMsg_encode m]

theorem readU32_be32 (n : Nat) (rest : List Nat) :
    readU32 (be32 n ++ rest) = some (n % 2 ^ 32, rest) := by
  rw [be32]
  simp only [List.cons_append, List.nil_append, readU32]
  congr 2
  omega

/-- C10: for every `TransferMessage` whose JSON encoding is shorter than
`2^32` bytes, parsing the byte sequence produced by `to_bytes` (big-endian
u32 length prefix, then exactly that many JSON bytes) with `from_stream`
yields the message again, with nothing left over. -/
theorem C10_framing_roundtrip (m : TransferMessage)
    (h : (jsonEncodeMsg m).length < 2 ^ 32) :
    TransferMessage.from_stream (TransferMessage.to_bytes m) = some (m, []) := by
  rw [TransferMessage.to_bytes, Nat.mod_eq_of_lt h, TransferMessage.from_stream,
    readU32_be32, Nat.mod_eq_of_lt h]
  simp [jsonDecodeMsg_encode]

/-- Witness for C10 at a concrete `ChunkAck` message. -/
theorem C10_framing_roundtrip_witness :
    TransferMessage.from_stream (TransferMessage.to_bytes (.chunkAck [116] 3)) =
      some (.chunkAck [116] 3, []) :=
  C10_framing_roundtrip (.chunkAck [116] 3) (by decide)

end Pebble

namespace Pebble

/-! ## Claim C7 -/

/-- C7: `update_sync_status(path, status)` errors exactly when no record
with that path exists; when one exists the call succeeds, sets that
record's `sync_status` to `status`, and leaves its other fields and all
other records unchanged. -/
theorem C7_update_sync_status_notfound_iff
    (table : List FileMetadata) (path status : String) :
    (((update_sync_status table path status).isOk = false) ↔
       (∀ r ∈ table, r.path ≠ path)) ∧
    (∀ r ∈ table, r.path = path →
       update_sync_status table path status =
         .ok (table.map fun r =>
           if r.path = path then { r with sync_status := status } else r)) := by
  constructor
  · unfold update_sync_status sqlUpdateByPath
    constructor
    · intro h r hr hp
      by_cases hz : (table.countP fun r => r.path = path) = 0
      · rw [List.countP_eq_zero] at hz
        exact hz r hr (by simpa using hp)
      · simp only [hz, if_false] at h
        simp [Except.isOk, Except.toBool] at h
    · intro hall
      have hz : (table.countP fun r => r.path = path) = 0 := by
        rw [List.countP_eq_zero]
        intro r hr
        simpa using hall r hr
      simp [hz, Except.isOk, Except.toBool]
  · intro r hr hp
    unfold update_sync_status sqlUpdateByPath
    have hz : (table.countP fun r => r.path = path) ≠ 0 := by
      intro h0
      rw [List.countP_eq_zero] at h0
      exact h0 r hr (by simpa using hp)
    simp [hz]

/-- Witness for C7 at a concrete one-row table. -/
theorem C7_update_sync_status_notfound_iff_witness :
    (((update_sync_status [⟨"/a", 3, "h", "Pending"⟩] "/a" "Synced").isOk = false) ↔
       (∀ r ∈ [(⟨"/a", 3, "h", "Pending"⟩ : FileMetadata)], r.path ≠ "/a")) ∧
    update_sync_status [⟨"/a", 3, "h", "Pending"⟩] "/a" "Synced" =
      .ok [⟨"/a", 3, "h", "Synced"⟩] := by
  refine ⟨(C7_update_sync_status_notfound_iff [⟨"/a", 3, "h", "Pending"⟩] "/a" "Synced").1, ?_⟩
  have h := (C7_update_sync_status_notfound_iff [⟨"/a", 3, "h", "Pending"⟩] "/a" "Synced").2
    ⟨"/a", 3, "h", "Pending"⟩ (by simp) (by simp)
  simpa using h

/-! ## Claim C9 -/

/-- Mapping a guarded rewrite over a list where the guard never fires is
the identity. -/
theorem map_guarded_id {α : Type} (l : List α) (p : α → Prop) [DecidablePred p]
    (f : α → α) (h : ∀ a ∈ l, ¬ p a) :
    (l.map fun a => if p a then f a else a) = l := by
  induction l with
  | nil => rfl
  | cons x xs ih =>
      simp only [List.map_cons, if_neg (h x (by simp)), List.cons.injEq]
      exact ⟨trivial, ih fun a ha => h a (by simp [ha])⟩

/-- C9: unlike `update_sync_status`, `update_file_metadata` returns `Ok`
even when no record with the given path exists, in which case the table is
unchanged; the absent path is not reported as an error. -/
theorem C9_update_file_metadata_ok_on_missing
    (table : List FileMetadata) (path : String) (lm : Int) (fh ss : String)
    (habsent : ∀ r ∈ table, r.path ≠ path) :
    update_file_metadata table path lm fh ss = .ok table := by
  unfold update_file_metadata sqlUpdateByPath
  exact congrArg Except.ok (map_guarded_id table (fun r => r.path = path)
    (fun r => { r with last_modified := lm, file_hash := fh, sync_status := ss })
    habsent)

/-- Witness for C9 at a concrete table not containing the path. -/
theorem C9_update_file_metadata_ok_on_missing_witness :
    update_file_metadata [⟨"/a", 3, "h", "Pending"⟩] "/b" 7 "h2" "Synced" =
      .ok [⟨"/a", 3, "h", "Pending"⟩] :=
  C9_update_file_metadata_ok_on_missing _ "/b" 7 "h2" "Synced" (by decide)

/-! ## Claim C4 -/

/-- C4: the custom verifier rejects iff a trusted fingerprint `some f` was
supplied and the hex SHA-256 fingerprint of the presented DER leaf differs
from `f`; with `none`, every presented leaf is accepted. -/
theorem C4_verify_server_cert_pinning
    (sha256hex : List Nat → String) (trusted : Option String)
    (end_entity : List Nat) :
    (verify_server_cert sha256hex trusted end_entity).isOk = false ↔
      ∃ f, trusted = some f ∧ sha256hex end_entity ≠ f := by
  unfold verify_server_cert
  match trusted with
  | none => simp [Except.isOk, Except.toBool]
  | some f =>
      by_cases h : sha256hex end_entity = f <;>
        simp [h, Except.isOk, Except.toBool]

/-! ## Claim C5 -/

/-- C5: `BeaconMessage::verify` returns `false` whenever the current time
exceeds the beacon's timestamp by more than 30 seconds, and returns
`false` whenever the stored signature differs from the hex HMAC-SHA-256
over `device_id ∥ device_name ∥ decimal(timestamp) ∥ protocol_version`
under the key (in particular for a signature made under a different PSK
whose HMAC output differs). -/
theorem C5_beacon_verify_rejects
    (hmacHex : String → String → String) (now : Nat) (b : BeaconMessage)
    (key : String) (hts : b.timestamp < U64) (hnow : now < U64) :
    (now > b.timestamp + 30 → b.verify hmacHex now key = false) ∧
    (b.signature ≠ hmacHex key b.dataToSign → b.verify hmacHex now key = false) := by
  constructor
  · intro hold
    have hlt : b.timestamp + 30 < U64 := by
      unfold U64 at *
      omega
    unfold BeaconMessage.verify
    rw [Nat.mod_eq_of_lt hlt]
    simp [hold]
  · intro hsig
    unfold BeaconMessage.verify
    by_cases hfresh : now > (b.timestamp + 30) % U64
    · simp [hfresh]
    · simp only [hfresh, if_false]
      exact beq_eq_false_iff_ne.mpr fun h => hsig h.symm

/-- Witness for C5: a stale beacon and a wrongly signed beacon, with a
concrete HMAC model, are both rejected. -/
theorem C5_beacon_verify_rejects_witness :
    BeaconMessage.verify (fun _ _ => "mac") 100
      ⟨"id", "name", 10, "1.0.0", "mac"⟩ "psk" = false ∧
    BeaconMessage.verify (fun _ _ => "mac") 10
      ⟨"id", "name", 10, "1.0.0", "other"⟩ "psk" = false :=
  ⟨(C5_beacon_verify_rejects (fun _ _ => "mac") 100
      ⟨"id", "name", 10, "1.0.0", "mac"⟩ "psk" (by norm_num [U64]) (by norm_num [U64])).1
      (by norm_num),
   (C5_beacon_verify_rejects (fun _ _ => "mac") 10
      ⟨"id", "name", 10, "1.0.0", "other"⟩ "psk" (by norm_num [U64]) (by norm_num [U64])).2
      (by decide)⟩

/-! ## Claim C8

The claim states the freshness check accepts beacons arbitrarily far in
the future.  The check is `now > timestamp + 30` in u64 arithmetic: for
`timestamp ≥ 2^64 - 30` the addition wraps and a future-dated, validly
signed beacon is rejected, so the claim fails at the top of the u64
range.  Within the non-overflowing range the claim's one-sidedness does
hold. -/

/-- C8 counterexample: a beacon stamped `2^64 - 1` (far in the future of
`now = 31`) carrying a valid signature is rejected, because
`timestamp + 30` wraps to `29 < now`. -/
theorem C8_counterexample_future_beacon_rejected :
    (31 ≤ U64 - 1) ∧
    BeaconMessage.verify (fun _ _ => "mac") 31
      ⟨"id", "name", U64 - 1, "1.0.0", "mac"⟩ "psk" = false := by
  refine ⟨by norm_num [U64], ?_⟩
  unfold BeaconMessage.verify
  norm_num [U64]

/-- C8 (amended): for every beacon whose timestamp is at least the current
time and for which `timestamp + 30` does not overflow u64, a valid
signature makes `verify` return `true`; the freshness check never rejects
such future-dated beacons. -/
theorem C8_future_beacons_accepted
    (hmacHex : String → String → String) (now : Nat) (b : BeaconMessage)
    (key : String) (hfuture : now ≤ b.timestamp)
    (hnoflow : b.timestamp + 30 < U64)
    (hsig : b.signature = hmacHex key b.dataToSign) :
    b.verify hmacHex now key = true := by
  unfold BeaconMessage.verify
  rw [Nat.mod_eq_of_lt hnoflow]
  have : ¬ now > b.timestamp + 30 := by omega
  simp [this, hsig]

/-- Witness for C8 (amended): a beacon 1000 seconds in the future of
`now = 5` with a valid signature is accepted. -/
theorem C8_future_beacons_accepted_witness :
    BeaconMessage.verify (fun _ _ => "mac") 5
      ⟨"id", "name", 1005, "1.0.0", "mac"⟩ "psk" = true :=
  C8_future_beacons_accepted (fun _ _ => "mac") 5
    ⟨"id", "name", 1005, "1.0.0", "mac"⟩ "psk"
    (by norm_num) (by norm_num [U64]) rfl

/-! ## Claim C1

The claim (matching spec scenario S1 and the unit test
`test_calculate_hash_empty_file` inside `integrity.rs` itself) expects
the 128-character BLAKE3-512 digest.  The code calls
`blake3::Hasher::finalize()`, which produces the default 256-bit digest;
`to_hex()` therefore returns 64 characters — the first half of the
expected extended output.  The code thus contradicts its own unit tests
(`assert_eq!` on the 128-character string and `assert_eq!(hash.len(),
128)`), so the claim stands and the code is at fault. -/

set_option maxRecDepth 100000 in
/-- C1 (code behavior at the failing input): for a 0-byte regular file
the code succeeds but returns the 64-character BLAKE3-256 hex digest, not
the 128-character BLAKE3-512 digest the claim (and the module's own unit
test) demand. -/
theorem C1_empty_file_hash_is_256_bit :
    calculate_file_hash (fun p => if p = "/empty" then some (.file []) else none)
      "/empty" =
      .ok "af1349b9f5f9a1a6a0404dea36dcc9499bcb25c9adc112b7cc9a93cae41f3262" ∧
    ("af1349b9f5f9a1a6a0404dea36dcc9499bcb25c9adc112b7cc9a93cae41f3262" : String).length = 64 ∧
    "af1349b9f5f9a1a6a0404dea36dcc9499bcb25c9adc112b7cc9a93cae41f3262" ≠
      "af1349b9f5f9a1a6a0404dea36dcc9499bcb25c9adc112b7cc9a93cae41f3262e00f03e7b69af26b7faaf09fcd333050338ddfe085b8cc869ca98b206c08243a" := by
  refine ⟨?_, by decide, by decide⟩
  have h : blake3Hex [] =
      "af1349b9f5f9a1a6a0404dea36dcc9499bcb25c9adc112b7cc9a93cae41f3262" := by
    decide
  simp [calculate_file_hash, h]

/-! ## Claim C2

The claim asserts the per-chunk order write → persist → ACK and a write
offset of `chunk_index * CHUNK_SIZE`.  In the code the ACK is written to
the stream (line 338) before `update_transfer_state` runs (line 341), the
file write happens at the current cursor — `receive_file` seeks once to
`resume_from * CHUNK_SIZE` and `write_all` then advances sequentially —
and the persisted counter is the local `received_chunks` counter, not
`chunk_index + 1`. -/

/-- C2 counterexample: from a fresh session (`resume_from = 0`), an
accepted `ChunkData` with `chunk_index = 5` is written at offset 0 (not
`5 * CHUNK_SIZE`), then acknowledged, and only then is
`received_chunks = 1` (not 6) persisted; the trace the claim predicts
differs from the actual one. -/
theorem C2_counterexample_ack_before_persist :
    receiveStep (fun _ => [48]) (initRecvState 0) (.chunkData [116] 5 [48] [7, 7]) =
      .next ⟨2, 1, [.write 0 [7, 7], .ack 5, .persist 1]⟩ ∧
    ([RecvEvent.write 0 [7, 7], .ack 5, .persist 1] ≠
      [RecvEvent.write (5 * CHUNK_SIZE) [7, 7], .persist 6, .ack 5]) := by
  constructor
  · rfl
  · decide

/-- C2 (amended): for every accepted `ChunkData` whose SHA-256 matches
`chunk_hash`, the server writes the chunk at the current file cursor
(which starts at `resume_from * CHUNK_SIZE` and advances by the length of
each accepted chunk, independently of the message's `chunk_index`), then
sends `ChunkAck(chunk_index)`, and only then persists the incremented
local counter `received_chunks + 1` to the `transfer_state` table; the
loop then continues on the remaining messages. -/
theorem C2_write_ack_persist_order (sha256hex : List Nat → ByteStr)
    (total : Nat) (st : RecvState) (tid chunk_hash : ByteStr)
    (chunk_index : Nat) (data : List Nat) (rest : List TransferMessage)
    (hactive : st.received_chunks < total)
    (hhash : sha256hex data = chunk_hash) :
    receiveRun sha256hex total st (.chunkData tid chunk_index chunk_hash data :: rest) =
      receiveRun sha256hex total
        { pos := st.pos + data.length,
          received_chunks := st.received_chunks + 1,
          trace := st.trace ++
            [.write st.pos data, .ack chunk_index,
             .persist (st.received_chunks + 1)] }
        rest := by
  rw [receiveRun, if_pos hactive]
  simp [receiveStep, hhash]

/-- Witness for C2 (amended) at a concrete session state. -/
theorem C2_write_ack_persist_order_witness :
    receiveRun (fun _ => [48]) 2 (initRecvState 0)
        [.chunkData [116] 0 [48] [7, 7]] =
      receiveRun (fun _ => [48]) 2
        ⟨2, 1, [.write 0 [7, 7], .ack 0, .persist 1]⟩ [] :=
  C2_write_ack_persist_order (fun _ => [48]) 2 (initRecvState 0)
    [116] [48] 0 [7, 7] [] (by norm_num [initRecvState]) rfl

/-! ## Claim C3

In the `RECEIVING` loop a hash mismatch does `anyhow::bail!` and ends the
session, but a message of a wrong kind falls into the
`_ => log::warn!(…)` arm: it is ignored and the loop keeps going, so
later chunks are still processed. -/

/-- C3 counterexample: with `total_chunks = 1`, the sequence
[`ChunkAck` (a wrong kind in RECEIVING), valid `ChunkData 0`] does not
terminate at the protocol violation — the run completes successfully and
the trace shows the later chunk being written, acknowledged and
persisted. -/
theorem C3_counterexample_wrong_kind_continues :
    receiveRun (fun _ => [48]) 1 (initRecvState 0)
        [.chunkAck [1] 0, .chunkData [116] 0 [48] [9]] =
      .ok ⟨1, 1, [.write 0 [9], .ack 0, .persist 1]⟩ ∧
    RecvEvent.ack 0 ∈ [RecvEvent.write 0 [9], .ack 0, .persist 1] := by
  constructor
  · rfl
  · decide

/-- C3 (amended): a chunk-hash mismatch terminates the session — no
message after it is processed, and the state at failure (its write and
persist trace, i.e. the partial file and the `transfer_state` row) is
returned untouched; a message of a wrong kind (neither `ChunkData` nor
`TransferComplete`) is merely logged: the state is unchanged and the
session continues with the remaining messages. -/
theorem C3_mismatch_terminates_wrong_kind_ignored
    (sha256hex : List Nat → ByteStr) (total : Nat) (st : RecvState)
    (tid chunk_hash : ByteStr) (chunk_index : Nat) (data : List Nat)
    (m : TransferMessage) (rest : List TransferMessage)
    (hactive : st.received_chunks < total)
    (hbad : sha256hex data ≠ chunk_hash)
    (hkind : m.isChunkData = false ∧ m.isTransferComplete = false) :
    receiveRun sha256hex total st (.chunkData tid chunk_index chunk_hash data :: rest) =
      .error (.chunkHashMismatch chunk_index, st) ∧
    receiveRun sha256hex total st (m :: rest) = receiveRun sha256hex total st rest := by
  constructor
  · rw [receiveRun, if_pos hactive]
    simp [receiveStep, hbad]
  · rw [receiveRun, if_pos hactive]
    match m with
    | .transferRequest _ _ _ _ _ => rfl
    | .transferAccept _ _ => rfl
    | .transferReject _ _ => rfl
    | .chunkAck _ _ => rfl
    | .error _ _ => rfl
    | .chunkData _ _ _ _ => simp [TransferMessage.isChunkData] at hkind
    | .transferComplete _ => simp [TransferMessage.isTransferComplete] at hkind

/-- Witness for C3 (amended) at concrete inputs. -/
theorem C3_mismatch_terminates_wrong_kind_ignored_witness :
    receiveRun (fun _ => [48]) 1 (initRecvState 0)
        [.chunkData [116] 0 [49] [9]] =
      .error (.chunkHashMismatch 0, initRecvState 0) ∧
    receiveRun (fun _ => [48]) 1 (initRecvState 0) [.chunkAck [1] 0] =
      receiveRun (fun _ => [48]) 1 (initRecvState 0) [] :=
  C3_mismatch_terminates_wrong_kind_ignored (fun _ => [48]) 1 (initRecvState 0)
    [116] [49] 0 [9] (.chunkAck [1] 0) [] (by norm_num [initRecvState])
    (by decide) (by decide)

/-! ## Claim C6 -/

/-- C6: on a `TransferRequest` the server consults the `transfer_state`
table keyed by `transfer_id` and replies `TransferAccept` with
`resume_from_chunk = 0` when no row with that id exists, and with the
stored `received_chunks` when a row exists. -/
theorem C6_resume_from_transfer_state
    (transfer_state : List (ByteStr × Nat)) (tid fp fh : ByteStr)
    (fsz tc : Nat) :
    (transfer_state.lookup tid = none →
      handleRequestReply transfer_state (.transferRequest tid fp fsz fh tc) =
        .ok (.transferAccept tid 0)) ∧
    (∀ n, transfer_state.lookup tid = some n →
      handleRequestReply transfer_state (.transferRequest tid fp fsz fh tc) =
        .ok (.transferAccept tid n)) := by
  constructor
  · intro hnone
    simp [handleRequestReply, get_resume_chunk, hnone]
  · intro n hsome
    simp [handleRequestReply, get_resume_chunk, hsome]

/-- Witness for C6: an unknown id resumes from 0, a known id resumes from
its stored chunk count. -/
theorem C6_resume_from_transfer_state_witness :
    handleRequestReply [] (.transferRequest [1] [2] 10 [3] 1) =
      .ok (.transferAccept [1] 0) ∧
    handleRequestReply [([1], 7)] (.transferRequest [1] [2] 10 [3] 1) =
      .ok (.transferAccept [1] 7) :=
  ⟨(C6_resume_from_transfer_state [] [1] [2] [3] 10 1).1 rfl,
   (C6_resume_from_transfer_state [([1], 7)] [1] [2] [3] 10 1).2 7 rfl⟩

end Pebble
